import Mathlib

/-!
Shallow embedding of `src/codecs/music_wav.c` (SDL-Mixer-X WAV/AIFF decoder).

Conventions of the embedding:
* C machine integers are modelled as `Nat` (for unsigned fields) and `Int`
  (for `int` / `Sint64` values); wraparound is written explicitly with `%`
  where the source's arithmetic can wrap.
* C `int` division and modulus truncate toward zero, which is `Int.tdiv` /
  `Int.tmod` in Lean; those are used wherever an operand can be negative.
* The byte source (`SDL_RWops`) is modelled by its cursor (an `Int` position
  carried in the playback state) together with a read oracle
  `read : Int → Int → Int` giving the number of bytes a read of a given
  length at a given position supplies (`SDL_RWread` returns the bytes read
  and advances the cursor by that much; 0 models a failed/short read).
* `SDL_AudioStream` with identical input/output formats is modelled as a byte
  counter `queue`: `SDL_AudioStreamPut` adds the put bytes,
  `SDL_AudioStreamGet` takes `min requested queue`, `SDL_AudioStreamFlush`
  is the identity.
* `double` arithmetic in `WAV_Seek` is modelled over `ℚ`; the C cast
  `(Sint64)` truncates toward zero, modelled by `truncQ`.
-/

/-! ### Constants from music_wav.c -/

def SIGN_BIT : Nat := 0x80

def QUANT_MASK : Nat := 0xF

def SEG_SHIFT : Nat := 4

def SEG_MASK : Nat := 0x70

def BIAS : Int := 0x84

/-! ### G.711 sample expansion (ALAW_To_PCM16 / uLAW_To_PCM16)

`t <<= n` on a positive `Sint16` is multiplication by `2 ^ n`; all
intermediate values stay far below 2^15, as in the C code. -/

def ALAW_To_PCM16 (a_val : Nat) : Int :=
  let a := a_val ^^^ 0x55
  let t : Int := ((a &&& QUANT_MASK) <<< 4 : Nat)
  let seg : Nat := (a &&& SEG_MASK) >>> SEG_SHIFT
  let t : Int :=
    if seg = 0 then t + 8
    else if seg = 1 then t + 0x108
    else (t + 0x108) * 2 ^ (seg - 1)
  if a &&& SIGN_BIT ≠ 0 then t else -t

/-- `u_val = ~u_val` on a `Uint8` is complement, i.e. xor with 0xFF. -/
def uLAW_To_PCM16 (u_val : Nat) : Int :=
  let u := u_val ^^^ 0xFF
  let t : Int := ((u &&& QUANT_MASK) <<< 3 : Nat) + BIAS
  let t : Int := t * 2 ^ ((u &&& SEG_MASK) >>> SEG_SHIFT)
  if u &&& SIGN_BIT ≠ 0 then BIAS - t else t - BIAS

/-! ### Data model: loop points, parsed-container constants, playback state -/

/-- `WAVLoopPoint`: `start`/`stop` are sample-frame indices (`Uint32`),
`stop` inclusive, as stored by `AddLoopPoint` from the `smpl` chunk. -/
structure WAVLoopPoint where
  active : Bool
  start : Nat
  stop : Nat
  initial_play_count : Nat
  current_play_count : Nat
deriving DecidableEq

/-- The fields of `WAV_Music` that are fixed once parsing succeeds. -/
structure WAVConfig where
  /-- region start byte offset (`music->start`) -/
  start : Int
  /-- region stop byte offset (`music->stop`) -/
  stop : Int
  /-- `music->spec.size`, the fixed fetch granularity in bytes -/
  spec_size : Int
  /-- `(SDL_AUDIO_BITSIZE(music->spec.format) / 8) * music->spec.channels` -/
  bytes_per_sample : Int
  /-- `music->spec.freq` -/
  freq : Int
  /-- `music->samplesize` (frame size in source bytes) -/
  samplesize : Int
deriving DecidableEq

/-- The mutable playback state: `music->play_count`, the byte-source cursor,
the loop array, and the audio-stream byte queue. -/
structure WAVState where
  play_count : Int
  pos : Int
  loops : List WAVLoopPoint
  queue : Int
deriving DecidableEq

/-- Instrumentation record for one `WAV_GetSome` call: the return value, and
which of the call's boundary actions fired (`*done` set; seek back to the
matched loop's start; deactivation of the matched loop). -/
structure GetSomeEvent where
  ret : Int
  done : Bool
  looped : Bool
  deactivated : Bool
deriving DecidableEq

/-- Byte offset of a loop's window start:
`music->start + loop->start * bytes_per_sample`. -/
def loopStartByte (cfg : WAVConfig) (l : WAVLoopPoint) : Int :=
  cfg.start + l.start * cfg.bytes_per_sample

/-- Byte offset of a loop's window stop (exclusive):
`music->start + (loop->stop + 1) * bytes_per_sample`. -/
def loopStopByte (cfg : WAVConfig) (l : WAVLoopPoint) : Int :=
  cfg.start + (l.stop + 1 : Nat) * cfg.bytes_per_sample

/-- The loop-scan of `WAV_GetSome`: the first `active` loop whose byte window
`[loopStartByte, loopStopByte)` contains `pos`, together with its index. -/
def findActiveLoop (cfg : WAVConfig) (pos : Int) :
    List WAVLoopPoint → Nat → Option (Nat × WAVLoopPoint)
  | [], _ => none
  | l :: rest, i =>
    if l.active = true ∧ loopStartByte cfg l ≤ pos ∧ pos < loopStopByte cfg l then
      some (i, l)
    else
      findActiveLoop cfg pos rest (i + 1)

/-- Loop-point reset performed by `WAV_Play` on every loop. -/
def resetLoop (l : WAVLoopPoint) : WAVLoopPoint :=
  { l with active := true, current_play_count := l.initial_play_count }

/-- `WAV_Play`: reset every loop, store the repeat count, seek to region
start.  The seek is modelled as succeeding. -/
def WAV_Play (cfg : WAVConfig) (s : WAVState) (play_count : Int) : WAVState :=
  { s with
    loops := s.loops.map resetLoop
    play_count := play_count
    pos := cfg.start }

/-- `WAV_GetSome` for the direct-copy (`fetch_pcm`) decode strategy: the
decode call reads `amount0` bytes from the source (the oracle `read` says how
many are supplied), advances the cursor by the supplied count and returns it.
Stream put/flush always succeed (identity-conversion stream model).  Returns
the successor state and the call's event record. -/
def WAV_GetSome (cfg : WAVConfig) (read : Int → Int → Int) (s : WAVState)
    (bytes : Int) : WAVState × GetSomeEvent :=
  let filled := min bytes s.queue
  if filled ≠ 0 then
    ({ s with queue := s.queue - filled },
     { ret := filled, done := false, looped := false, deactivated := false })
  else if s.play_count = 0 then
    (s, { ret := 0, done := true, looped := false, deactivated := false })
  else
    let pos := s.pos
    let found := findActiveLoop cfg pos s.loops 0
    let stop :=
      match found with
      | some (_, l) => loopStopByte cfg l
      | none => cfg.stop
    let amount0 := min cfg.spec_size (stop - pos)
    let supplied := read pos amount0
    let pos1 := pos + supplied
    let amount := supplied
    let queue1 := if 0 < amount then s.queue + amount else s.queue
    let step2 :=
      match found with
      | some (i, l) =>
        if stop ≤ pos1 then
          if l.current_play_count = 1 then
            (s.loops.set i { l with active := false }, pos1, false, true)
          else
            (s.loops.set i
              { l with current_play_count :=
                  if 0 < l.current_play_count then l.current_play_count - 1
                  else l.current_play_count },
             loopStartByte cfg l, true, false)
        else (s.loops, pos1, false, false)
      | none => (s.loops, pos1, false, false)
    let loops2 := step2.1
    let pos2 := step2.2.1
    let looped := step2.2.2.1
    let deactivated := step2.2.2.2
    let s1 : WAVState :=
      { play_count := s.play_count, pos := pos2, loops := loops2, queue := queue1 }
    let ev : GetSomeEvent :=
      { ret := 0, done := false, looped := looped, deactivated := deactivated }
    if looped = false ∧ (amount ≤ 0 ∨ cfg.stop ≤ pos1) then
      if s.play_count = 1 then
        ({ s1 with play_count := 0 }, ev)
      else
        (WAV_Play cfg s1 (if 0 < s.play_count then s.play_count - 1 else -1), ev)
    else
      (s1, ev)

/-! ### WAV_Seek / WAV_Tell / WAV_Length -/

/-- Truncation toward zero, the semantics of the C cast `(Sint64)` applied to
a `double`. -/
def truncQ (q : ℚ) : Int := if 0 ≤ q then ⌊q⌋ else -⌊-q⌋

/-- `destpos = music->start + (Sint64)(position * freq * samplesize)`. -/
def seekTarget (cfg : WAVConfig) (position : ℚ) : Int :=
  cfg.start + truncQ (position * (cfg.freq : ℚ) * (cfg.samplesize : ℚ))

/-- `WAV_Seek`: reject (returning -1, touching nothing) when the target is
strictly beyond `music->stop`, otherwise reposition the cursor and return 0. -/
def WAV_Seek (cfg : WAVConfig) (s : WAVState) (position : ℚ) : WAVState × Int :=
  let destpos := seekTarget cfg position
  if cfg.stop < destpos then (s, -1)
  else ({ s with pos := destpos }, 0)

/-! ### Iterated playback sessions -/

/-- State after `n` successive `WAV_GetSome` calls from `s`. -/
def iterGetSome (cfg : WAVConfig) (read : Int → Int → Int) (bytes : Int) :
    WAVState → Nat → WAVState
  | s, 0 => s
  | s, n + 1 => iterGetSome cfg read bytes (WAV_GetSome cfg read s bytes).1 n

/-- Whether any of `n` successive `WAV_GetSome` calls from `s` signals
end-of-stream (`*done`). -/
def anyDone (cfg : WAVConfig) (read : Int → Int → Int) (bytes : Int) :
    WAVState → Nat → Bool
  | _, 0 => false
  | s, n + 1 =>
    (WAV_GetSome cfg read s bytes).2.done ||
      anyDone cfg read bytes (WAV_GetSome cfg read s bytes).1 n

/-! ### Concrete instances used by witnesses and counterexamples -/

/-- A byte source that always supplies every requested byte. -/
def fullRead : Int → Int → Int := fun _ amount => max amount 0

/-- A byte source whose reads always fail (`SDL_RWread` returns 0). -/
def failRead : Int → Int → Int := fun _ _ => 0

/-- A single forward loop over frames 1000..1999 (byte window
`[1000, 2000)` at one byte per frame) with play count 3. -/
def c1loop : WAVLoopPoint :=
  { active := true, start := 1000, stop := 1999,
    initial_play_count := 3, current_play_count := 3 }

/-- Parsed container for the C1 session: region `[0, 3000)`, one byte per
frame, fetch granularity 500 bytes. -/
def c1cfg : WAVConfig :=
  { start := 0, stop := 3000, spec_size := 500, bytes_per_sample := 1,
    freq := 1, samplesize := 1 }

def c1init : WAVState := { play_count := 0, pos := 0, loops := [c1loop], queue := 0 }

/-- The C1 session: `WAV_Play(1)` then successive `WAV_GetSome` calls with a
600-byte consumer budget against a full source. -/
def c1states : Nat → WAVState
  | 0 => WAV_Play c1cfg c1init 1
  | n + 1 => (WAV_GetSome c1cfg fullRead (c1states n) 600).1

def c1event (n : Nat) : GetSomeEvent := (WAV_GetSome c1cfg fullRead (c1states n) 600).2

/-- Same container as `c1cfg` except the fetch granularity is the parser's
default 4096 frames × 1 byte = 4096 bytes, larger than the whole region. -/
def c1bcfg : WAVConfig :=
  { start := 0, stop := 3000, spec_size := 4096, bytes_per_sample := 1,
    freq := 1, samplesize := 1 }

def c1bstates : Nat → WAVState
  | 0 => WAV_Play c1bcfg c1init 1
  | n + 1 => (WAV_GetSome c1bcfg fullRead (c1bstates n) 4096).1

def c1bevent (n : Nat) : GetSomeEvent := (WAV_GetSome c1bcfg fullRead (c1bstates n) 4096).2

/-- Container for the C2 counterexample: region `[0, 100)`, granularity 64. -/
def c2cfg : WAVConfig :=
  { start := 0, stop := 100, spec_size := 64, bytes_per_sample := 1,
    freq := 1, samplesize := 1 }

/-- Mid-playback state for C2: cursor at 50 (outside the loop window
`[10, 20)`), two passes of the whole file left, the loop already partly
consumed (2 of its initial 5 passes remaining). -/
def c2st : WAVState :=
  { play_count := 2, pos := 50,
    loops := [{ active := true, start := 10, stop := 19,
                initial_play_count := 5, current_play_count := 2 }],
    queue := 0 }

def c7cfg : WAVConfig :=
  { start := 0, stop := 100, spec_size := 64, bytes_per_sample := 1,
    freq := 1, samplesize := 1 }

def c7init : WAVState := { play_count := 0, pos := 0, loops := [], queue := 0 }


def c9cfg : WAVConfig :=
  { start := 10, stop := 20, spec_size := 4096, bytes_per_sample := 1,
    freq := 1, samplesize := 1 }

def c9st : WAVState := { play_count := 2, pos := 12, loops := [], queue := 0 }

def c10cfg : WAVConfig :=
  { start := 10, stop := 20, spec_size := 4096, bytes_per_sample := 1,
    freq := 1, samplesize := 1 }

def c10st : WAVState := { play_count := 2, pos := 12, loops := [], queue := 0 }

/-! ### Metadata extraction (ParseLIST / read_meta_field)

Chunk data is a byte list; a read of `data + j` is `data.getD j 0`.  Reads
past the end of the malloc'd chunk buffer (undefined behaviour in C) are
modelled as yielding 0, which stops `SDL_strlcpy` as a NUL would. -/

inductive Mix_MusicMetaTag where
  | title
  | artist
  | album
  | copyright
deriving DecidableEq

/-- The four recognized tag slots of `Mix_MusicMetaTags`, each `none` until
`meta_tags_set` stores a byte-string value. -/
structure Mix_MusicMetaTags where
  title : Option (List Nat)
  artist : Option (List Nat)
  album : Option (List Nat)
  copyright : Option (List Nat)
deriving DecidableEq

def meta_tags_init : Mix_MusicMetaTags :=
  { title := none, artist := none, album := none, copyright := none }

def meta_tags_set (tags : Mix_MusicMetaTags) (t : Mix_MusicMetaTag)
    (v : List Nat) : Mix_MusicMetaTags :=
  match t with
  | .title => { tags with title := some v }
  | .artist => { tags with artist := some v }
  | .album => { tags with album := some v }
  | .copyright => { tags with copyright := some v }

/-- Little-endian `Uint32` load at byte offset `i`. -/
def le32get (data : List Nat) (i : Nat) : Nat :=
  data.getD i 0 + data.getD (i + 1) 0 * 0x100 +
    data.getD (i + 2) 0 * 0x10000 + data.getD (i + 3) 0 * 0x1000000

/-- Big-endian `Uint32` load at byte offset `i`. -/
def be32get (data : List Nat) (i : Nat) : Nat :=
  data.getD i 0 * 0x1000000 + data.getD (i + 1) 0 * 0x10000 +
    data.getD (i + 2) 0 * 0x100 + data.getD (i + 3) 0

/-- Does `data + i` start with the 4 bytes `a b c d`? (`SDL_strncmp` = 0). -/
def bytes4At (data : List Nat) (i a b c d : Nat) : Bool :=
  data.getD i 0 == a && data.getD (i + 1) 0 == b &&
    data.getD (i + 2) 0 == c && data.getD (i + 3) 0 == d

/-- `SDL_strlcpy(field, data + i, maxlen)` into a zeroed buffer: the stored
C string holds at most `maxlen - 1` bytes from `data + i`, stopping at the
first NUL. -/
def strlcpyBytes (data : List Nat) (i maxlen : Nat) : List Nat :=
  ((List.range (maxlen - 1)).map fun j => data.getD (i + j) 0).takeWhile
    fun b => b ≠ 0

/-- `read_meta_field`: advance past the 4-byte sub-tag, load the 4-byte
length (big-endian only in the ID3 variant, `fieldOffset = 7`), give up —
leaving the tag unset — only when the length exceeds the *whole* chunk
length, else copy the value and store the tag.  Returns the updated tags and
scan index. -/
def read_meta_field (tags : Mix_MusicMetaTags) (tag_type : Mix_MusicMetaTag)
    (i chunk_length : Nat) (data : List Nat) (fieldOffset : Nat) :
    Mix_MusicMetaTags × Nat :=
  let isID3 := fieldOffset = 7
  let i1 := i + 4
  let len := if isID3 then be32get data i1 else le32get data i1
  if chunk_length < len then (tags, i1)
  else
    let i2 := i1 + fieldOffset
    let field := strlcpyBytes data i2 (if isID3 then len - 1 else len)
    (meta_tags_set tags tag_type field, i2 + len)

/-- The `for (i = 4; i < chunk_length - 4;)` scan of `ParseLIST`.  Each
iteration advances `i` by at least 1 and the loop runs only while
`i < chunk_length - 4`, so `chunk_length` iterations of fuel always suffice;
`ParseLIST` passes exactly that. -/
def ParseLIST_scan (chunk_length : Nat) (data : List Nat) :
    Nat → Mix_MusicMetaTags → Nat → Mix_MusicMetaTags
  | 0, tags, _ => tags
  | fuel + 1, tags, i =>
    if i < chunk_length - 4 then
      if bytes4At data i 73 78 65 77 then      -- "INAM"
        let r := read_meta_field tags .title i chunk_length data 4
        ParseLIST_scan chunk_length data fuel r.1 r.2
      else if bytes4At data i 73 65 82 84 then -- "IART"
        let r := read_meta_field tags .artist i chunk_length data 4
        ParseLIST_scan chunk_length data fuel r.1 r.2
      else if bytes4At data i 73 65 76 66 then -- "IALB"
        let r := read_meta_field tags .album i chunk_length data 4
        ParseLIST_scan chunk_length data fuel r.1 r.2
      else if bytes4At data i 66 67 80 82 then -- "BCPR"
        let r := read_meta_field tags .copyright i chunk_length data 4
        ParseLIST_scan chunk_length data fuel r.1 r.2
      else
        ParseLIST_scan chunk_length data fuel tags (i + 1)
    else tags

/-- `ParseLIST`: only a chunk starting with "INFO" is processed; returns the
updated tag store and the `loaded` flag. -/
def ParseLIST (tags : Mix_MusicMetaTags) (chunk_length : Nat)
    (data : List Nat) : Mix_MusicMetaTags × Bool :=
  if bytes4At data 0 73 78 70 79 then          -- "INFO"
    (ParseLIST_scan chunk_length data chunk_length tags 4, true)
  else (tags, false)

/-! ### 24-bit-to-32-bit expansion (fetch_pcm24be)

The scratch buffer is a total byte map `Int → Nat` (the C loop's index `i`
is an `int` that ends at -1 or -2).  On any host,
`SDL_SwapLE32(*(Uint32*)(buffer + i))` is the little-endian interpretation
of the 4 bytes at offsets `i .. i+3`. -/

/-- `sign_extend_24_32`: shift the lowest loaded byte out, mask to 24 bits,
and sign-extend bit 23 via `(x ^ m) - m` in wrapping `Uint32` arithmetic. -/
def sign_extend_24_32 (x : Nat) : Nat :=
  let m : Nat := 1 <<< 23
  let x1 := (x >>> 8) &&& 0xFFFFFF
  ((x1 ^^^ m) + (0x100000000 - m)) % 0x100000000

/-- Little-endian `Uint32` load from the scratch buffer at index `i`. -/
def le32buf (buf : Int → Nat) (i : Int) : Nat :=
  buf i + buf (i + 1) * 0x100 + buf (i + 2) * 0x10000 +
    buf (i + 3) * 0x1000000

/-- Byte `j` of the little-endian representation of `v`:
`(v >> (8*j)) & 0xFF`. -/
def byteOf (v j : Nat) : Nat := (v >>> (8 * j)) &&& 0xFF

/-- The 4-byte store of one expansion iteration:
`buffer[o + j] = (decoded >> 8j) & 0xFF` for `j = 0..3`. -/
def write4 (buf : Int → Nat) (o : Int) (v : Nat) : Int → Nat := fun j =>
  if j = o then byteOf v 0
  else if j = o + 1 then byteOf v 1
  else if j = o + 2 then byteOf v 2
  else if j = o + 3 then byteOf v 3
  else buf j

/-- The loop `for (i = length-1, o = ((length-1)/3)*4; i >= 0; i -= 3, o -= 4)`
of `fetch_pcm24be`: each iteration decodes the 4-byte load at `i` and stores
the 4 output bytes at `o`.  `steps` counts the iterations still allowed;
`fetch_pcm24be` passes `⌈(length)/3⌉`, exactly the number of iterations the
C loop performs, which keeps the definition structurally recursive (and
kernel-computable) while the `0 ≤ i` guard preserves the C loop's exit
condition. -/
def fetch24loop : Nat → (Int → Nat) → Int → Int → (Int → Nat)
  | 0, buf, _, _ => buf
  | steps + 1, buf, i, o =>
    if 0 ≤ i then
      fetch24loop steps (write4 buf o (sign_extend_24_32 (le32buf buf i)))
        (i - 3) (o - 4)
    else buf

/-- The buffer after `SDL_RWread` deposited `supplied` bytes of `src` at its
start. -/
def loadBuf (src : List Nat) (supplied : Nat) (buf0 : Int → Nat) :
    Int → Nat := fun j =>
  if 0 ≤ j ∧ j < (supplied : Int) then src.getD j.toNat 0 else buf0 j

/-- Result of a `fetch_pcm24be` call: final scratch-buffer contents and the
returned byte count. -/
structure Fetch24Result where
  buf : Int → Nat
  ret : Int

/-- `fetch_pcm24be`: request `(length / 4) * 3` bytes (the source supplies
at most `src.length`), truncate the count read down to a multiple of
`samplesize`, run the in-place expansion loop, and return
`((length - samplesize) / 3) * 4` for the truncated length.  C `int`
division truncates toward zero (`Int.tdiv`); a negative byte budget (which
`WAV_GetSome` never produces for a live region) is modelled as a
zero-length read. -/
def fetch_pcm24be (samplesize : Nat) (src : List Nat) (buf0 : Int → Nat)
    (length : Int) : Fetch24Result :=
  let req : Nat := (Int.tdiv length 4 * 3).toNat
  let supplied : Nat := min req src.length
  let buf1 := loadBuf src supplied buf0
  let len : Nat := supplied - supplied % samplesize
  let steps : Nat := (len + 2) / 3
  { buf := fetch24loop steps buf1 ((len : Int) - 1)
      (Int.tdiv ((len : Int) - 1) 3 * 4)
    ret := Int.tdiv ((len : Int) - samplesize) 3 * 4 }

/-- The 3 source bytes iteration `k` of the expansion pass reads: the loop
visits `i = 3k + 2` for the sample with write offset `4k`, and the decoded
value depends exactly on the loaded bytes `i+1 .. i+3` (the lowest loaded
byte is shifted out — `sign_extend_24_32_drops_low_byte`), i.e. on offsets
`3k+3 .. 3k+5`. -/
def reads24 (k b : Nat) : Prop := 3 * k + 3 ≤ b ∧ b ≤ 3 * k + 5

/-- The byte offsets `4k .. 4k+3` written by iteration `k` of the pass. -/
def writes24 (k b : Nat) : Prop := 4 * k ≤ b ∧ b ≤ 4 * k + 3

instance (k b : Nat) : Decidable (reads24 k b) := by
  unfold reads24
  infer_instance

instance (k b : Nat) : Decidable (writes24 k b) := by
  unfold writes24
  infer_instance

/-- Scratch-buffer fill pattern for the C3 counterexample: byte `j` holds
`j + 1` on `0 ≤ j < 15`, and 0 beyond. -/
def c3fill : Int → Nat := fun j => if 0 ≤ j ∧ j < 15 then j.toNat + 1 else 0

/-- 12 source bytes (budget 16: `(16/4)*3 = 12`) for the C4 counterexample. -/
def c4src : List Nat := List.replicate 12 1

/-- A 20-byte LIST chunk: "INFO", then an "INAM" record declaring length 10
while only 8 bytes remain after its 8-byte header, then the bytes
"ABCDEFGH". -/
def c8data : List Nat :=
  [73, 78, 70, 79,  73, 78, 65, 77,  10, 0, 0, 0,
   65, 66, 67, 68, 69, 70, 71, 72]

/-! ## Theorems -/

/-- C5 (counterexample): the A-law expansion of the byte 0xD5 is not the
16-bit PCM sample 0 — the claimed silence value is wrong for this code. -/
theorem claim_C5_counterexample : ¬ ALAW_To_PCM16 0xD5 = 0 := by decide

/-- C5 (amended): the A-law expansion of the byte 0xD5 yields the 16-bit PCM
sample 8: after xor with 0x55 the byte is 0x80, so segment 0 and
quantization 0 give magnitude `(0 <<< 4) + 8 = 8`, and the set sign bit
selects `+t`. -/
theorem claim_C5 : ALAW_To_PCM16 0xD5 = 8 := by decide

/-- C6: the μ-law expansion of the byte 0xFF yields the 16-bit PCM sample 0,
by the reconstruction `(((quantization <<< 3) + BIAS) <<< segment) - BIAS`
with `BIAS = 0x84` applied to the complemented byte 0x00. -/
theorem claim_C6 : uLAW_To_PCM16 0xFF = 0 := by decide

/-- C9: a seek whose target offset exceeds the region stop returns failure
(-1) and changes nothing; a successful seek only repositions the cursor, so
the loop list (every remaining count and active flag) and the overall repeat
count are untouched by any seek. -/
theorem claim_C9 (cfg : WAVConfig) (s : WAVState) (p : ℚ) :
    (cfg.stop < seekTarget cfg p → WAV_Seek cfg s p = (s, -1)) ∧
    (seekTarget cfg p ≤ cfg.stop →
      WAV_Seek cfg s p = ({ s with pos := seekTarget cfg p }, 0)) ∧
    (WAV_Seek cfg s p).1.loops = s.loops ∧
    (WAV_Seek cfg s p).1.play_count = s.play_count := by
  by_cases h : cfg.stop < seekTarget cfg p
  · exact ⟨fun _ => by simp [WAV_Seek, h], fun h2 => absurd h (by omega),
      by simp [WAV_Seek, h], by simp [WAV_Seek, h]⟩
  · exact ⟨fun h2 => absurd h2 h, fun _ => by simp [WAV_Seek, h],
      by simp [WAV_Seek, h], by simp [WAV_Seek, h]⟩

/-- Witness for C9: with region `[10, 20]`, frequency 1 and frame size 1,
seeking to 50 s (target 60 > 20) fails and leaves the state alone, while
seeking to 5 s (target 15) succeeds and only moves the cursor. -/
theorem claim_C9_witness :
    WAV_Seek c9cfg c9st 50 = (c9st, -1) ∧
    WAV_Seek c9cfg c9st 5 = ({ c9st with pos := 15 }, 0) := by
  have h1 : seekTarget c9cfg 50 = 60 := by norm_num [seekTarget, truncQ, c9cfg]
  have h2 : seekTarget c9cfg 5 = 15 := by norm_num [seekTarget, truncQ, c9cfg]
  refine ⟨(claim_C9 c9cfg c9st 50).1 (by rw [h1]; norm_num [c9cfg]), ?_⟩
  have h3 := (claim_C9 c9cfg c9st 5).2.1 (by rw [h2]; norm_num [c9cfg])
  rw [h2] at h3
  exact h3

/-- C10 (counterexample): the negative seconds argument -1/2 (with frequency
1 and frame size 1) scales to the byte offset -1/2, which the C cast
truncates to 0 — the seek succeeds but the cursor lands exactly at the
region start, not before it as the claim asserts for every negative
argument. -/
theorem claim_C10_counterexample :
    (-(1:ℚ)/2) < 0 ∧
    WAV_Seek c10cfg c10st (-(1:ℚ)/2) = ({ c10st with pos := c10cfg.start }, 0) ∧
    ¬ (WAV_Seek c10cfg c10st (-(1:ℚ)/2)).1.pos < c10cfg.start := by
  refine ⟨by norm_num, ?_, ?_⟩ <;>
    norm_num [WAV_Seek, seekTarget, truncQ, c10cfg, c10st]

/-- C10 (amended): Seek rejects exactly when the computed target strictly
exceeds the region stop; no lower bound is checked, so whenever the scaled
target offset falls strictly below the region start (e.g. seconds ≤ -1 with
frequency × frame size ≥ 1) the seek reports success and repositions the
cursor before the region start.  A tiny negative seconds whose scaled offset
truncates to zero instead lands exactly at the region start. -/
theorem claim_C10 (cfg : WAVConfig) (s : WAVState) (p : ℚ) :
    ((WAV_Seek cfg s p).2 = -1 ↔ cfg.stop < seekTarget cfg p) ∧
    (cfg.start ≤ cfg.stop → seekTarget cfg p < cfg.start →
      (WAV_Seek cfg s p).2 = 0 ∧
      (WAV_Seek cfg s p).1.pos = seekTarget cfg p ∧
      (WAV_Seek cfg s p).1.pos < cfg.start) := by
  by_cases h : cfg.stop < seekTarget cfg p
  · refine ⟨by simp [WAV_Seek, h], fun h1 h2 => absurd h (by omega)⟩
  · refine ⟨by simp [WAV_Seek, h], fun h1 h2 =>
      ⟨by simp [WAV_Seek, h], by simp [WAV_Seek, h], ?_⟩⟩
    simp [WAV_Seek, h]
    omega

/-- Witness for C10: with region `[10, 20]`, frequency 1 and frame size 1,
seeking to -2 s targets offset 8 < 10: the seek is accepted and the cursor
ends up before the region start. -/
theorem claim_C10_witness :
    (WAV_Seek c10cfg c10st (-2)).2 = 0 ∧
    (WAV_Seek c10cfg c10st (-2)).1.pos = seekTarget c10cfg (-2) ∧
    (WAV_Seek c10cfg c10st (-2)).1.pos < c10cfg.start := by
  have h : seekTarget c10cfg (-2) = 8 := by norm_num [seekTarget, truncQ, c10cfg]
  exact (claim_C10 c10cfg c10st (-2)).2 (by norm_num [c10cfg]) (by rw [h]; norm_num [c10cfg])


/-- Helper: a `WAV_GetSome` call from a state with negative `play_count`
(the infinite convention) never signals `*done` and keeps `play_count`
negative. -/
theorem getSome_neg_play_count (cfg : WAVConfig) (read : Int → Int → Int)
    (s : WAVState) (bytes : Int) (h : s.play_count < 0) :
    (WAV_GetSome cfg read s bytes).2.done = false ∧
    (WAV_GetSome cfg read s bytes).1.play_count < 0 := by
  have hpc : ¬ s.play_count = 0 := by omega
  have hpc1 : ¬ s.play_count = 1 := by omega
  have hpc2 : ¬ (0 : Int) < s.play_count := by omega
  simp only [WAV_GetSome, hpc, hpc1, hpc2, if_false, ite_false, WAV_Play]
  repeat' split
  all_goals simp_all

/-- Helper: over any number of calls, a session whose `play_count` is
negative never signals end-of-stream and keeps `play_count` negative. -/
theorem iter_neg_play_count (cfg : WAVConfig) (read : Int → Int → Int)
    (bytes : Int) (n : Nat) :
    ∀ s : WAVState, s.play_count < 0 →
      anyDone cfg read bytes s n = false ∧
      (iterGetSome cfg read bytes s n).play_count < 0 := by
  induction n with
  | zero => exact fun s h => ⟨rfl, h⟩
  | succ n ih =>
    intro s h
    have h1 := getSome_neg_play_count cfg read s bytes h
    have h2 := ih (WAV_GetSome cfg read s bytes).1 h1.2
    exact ⟨by simp [anyDone, h1.1, h2.1], by simpa [iterGetSome] using h2.2⟩

/-- C7 (counterexample): `WAV_Play` with repeat count 0 does not follow the
infinite convention: the very first `WAV_GetSome` call signals end-of-stream
(`*done = SDL_TRUE`), produces nothing, and never restarts production —
because `if (!music->play_count)` treats 0 as "all done". -/
theorem claim_C7_counterexample :
    (WAV_GetSome c7cfg fullRead (WAV_Play c7cfg c7init 0) 64).2.done = true ∧
    (WAV_GetSome c7cfg fullRead (WAV_Play c7cfg c7init 0) 64).2.ret = 0 ∧
    (WAV_GetSome c7cfg fullRead (WAV_Play c7cfg c7init 0) 64).1 =
      WAV_Play c7cfg c7init 0 := by
  decide

/-- C7 (amended): only a *negative* repeat count follows the infinite
convention: after `WAV_Play` with a negative count, no number of
`WAV_GetSome` calls ever signals end-of-stream, and the remaining repeat
count stays negative (it is pinned to -1 at each region restart).  A repeat
count of exactly 0 instead makes the first call signal end-of-stream and
produce nothing. -/
theorem claim_C7 (cfg : WAVConfig) (read : Int → Int → Int) (bytes : Int)
    (s : WAVState) (pc : Int) (h : pc < 0) (n : Nat) :
    anyDone cfg read bytes (WAV_Play cfg s pc) n = false ∧
    (iterGetSome cfg read bytes (WAV_Play cfg s pc) n).play_count < 0 :=
  iter_neg_play_count cfg read bytes n (WAV_Play cfg s pc) (by simpa [WAV_Play] using h)

/-- Witness for C7: a session started with repeat count -1 signals no
end-of-stream over its first 3 calls and keeps a negative repeat count. -/
theorem claim_C7_witness :
    anyDone c7cfg fullRead 64 (WAV_Play c7cfg c7init (-1)) 3 = false ∧
    (iterGetSome c7cfg fullRead 64 (WAV_Play c7cfg c7init (-1)) 3).play_count < 0 :=
  claim_C7 c7cfg fullRead 64 c7init (-1) (by decide) 3

/-- C1 (counterexample): a parsed container with one loop point of initial
repeat count 3 (byte window `[1000, 2000)` inside region `[0, 3000)`) whose
fetch granularity (4096 bytes, the parser's 4096-frames default at one byte
per frame) exceeds the region size.  After `WAV_Play(1)`, the first call
reads straight from 0 to 3000 — the fetch ceiling is the region stop because
the cursor (at 0) lies in no loop window — so the loop's byte window is
passed without the loop logic ever engaging: no call seeks back to 1000, the
loop is never deactivated, its remaining count is still 3 when the session
signals end-of-stream on call 3, and the end-of-stream state is absorbing.
The claim's "exactly 3 traversals with two seek-backs and a deactivation"
therefore fails for this session. -/
theorem claim_C1_counterexample :
    ((List.range 4).map fun n => (c1bevent n).looped) = [false, false, false, false] ∧
    ((List.range 4).map fun n => (c1bevent n).deactivated) = [false, false, false, false] ∧
    (c1bevent 2).done = true ∧
    (c1bstates 3).loops = [c1loop] ∧
    (c1bstates 3).play_count = 0 ∧
    WAV_GetSome c1bcfg fullRead (c1bstates 3) 4096 =
      (c1bstates 3, { ret := 0, done := true, looped := false, deactivated := false }) := by
  decide

/-- C1 (amended): provided the fetch granularity makes the cursor land inside
the loop's byte window (here granularity 500 over window `[1000, 2000)` in
region `[0, 3000)`), a loop with initial repeat count 3 is traversed exactly
3 times: the traversals ending at calls 7 and 11 seek the cursor back to
1000 and decrement the remaining count (3→2→1); the third traversal (call
15, remaining count exactly 1) deactivates the loop without seeking back
(cursor stays at 2000); production then continues past offset 2000 with the
region stop 3000 as the boundary (cursor 2500 after call 17, region end and
final drain at call 19), and no call of the session seeks to the loop start
other than calls 7 and 11. -/
theorem claim_C1 :
    ((List.range 21).map fun n => (c1event n).looped) =
      [false, false, false, false, false, false, true, false, false, false, true,
       false, false, false, false, false, false, false, false, false, false] ∧
    ((List.range 21).map fun n => (c1event n).deactivated) =
      [false, false, false, false, false, false, false, false, false, false, false,
       false, false, false, true, false, false, false, false, false, false] ∧
    ((List.range 21).map fun n => (c1event n).done) =
      [false, false, false, false, false, false, false, false, false, false, false,
       false, false, false, false, false, false, false, false, false, true] ∧
    (c1states 7).pos = 1000 ∧
    (c1states 7).loops = [{ c1loop with current_play_count := 2 }] ∧
    (c1states 11).pos = 1000 ∧
    (c1states 11).loops = [{ c1loop with current_play_count := 1 }] ∧
    (c1states 15).pos = 2000 ∧
    (c1states 15).loops = [{ c1loop with active := false, current_play_count := 1 }] ∧
    (c1states 17).pos = 2500 ∧
    (c1states 19).pos = 3000 ∧
    (c1states 19).play_count = 0 := by
  decide

/-- C2 (counterexample): a failed source read during `WAV_GetSome` does
mutate state.  Region `[0, 100)`, cursor at 50 outside the loop window,
overall repeat count 2, loop remaining count 2 (of initial 5); the read
supplies nothing (`SDL_RWread` returns 0).  The call treats the failure as
end-of-region: the repeat count drops to 1, the cursor is seeked to region
start 0, and the loop's remaining count is reset to its initial 5 — so a
retried call does not resume from the same logical position, contradicting
the claim that cursor, loop counts and repeat count are left unchanged. -/
theorem claim_C2_counterexample :
    (WAV_GetSome c2cfg failRead c2st 64).1 =
      { play_count := 1, pos := 0,
        loops := [{ active := true, start := 10, stop := 19,
                    initial_play_count := 5, current_play_count := 5 }],
        queue := 0 } ∧
    (WAV_GetSome c2cfg failRead c2st 64).1.pos ≠ c2st.pos ∧
    (WAV_GetSome c2cfg failRead c2st 64).1.play_count ≠ c2st.play_count ∧
    (WAV_GetSome c2cfg failRead c2st 64).1.loops ≠ c2st.loops := by
  decide

/-- Helper: a loop returned by the scan of `WAV_GetSome` is active and its
byte window contains the cursor. -/
theorem findActiveLoop_sound (cfg : WAVConfig) (pos : Int) :
    ∀ (loops : List WAVLoopPoint) (i j : Nat) (l : WAVLoopPoint),
      findActiveLoop cfg pos loops i = some (j, l) →
      l.active = true ∧ loopStartByte cfg l ≤ pos ∧ pos < loopStopByte cfg l := by
  intro loops
  induction loops with
  | nil => intro i j l h; exact absurd h (by simp [findActiveLoop])
  | cons hd tl ih =>
    intro i j l h
    unfold findActiveLoop at h
    split at h
    · rename_i hcond
      cases h
      exact hcond
    · exact ih (i + 1) j l h

/-- C2 (amended): when the source fails at the current cursor position
(every read there supplies nothing), the call returns 0 without signalling
`*done` but handles the failure as end-of-region — whether or not an active
loop window contains the cursor: a matched loop's boundary action cannot
fire, because the unmoved cursor is still strictly below that loop's stop
offset.  With overall repeat count exactly 1 the count is set to 0 (final
drain) and nothing else changes; otherwise the count is decremented (pinned
to -1 when it was non-positive, i.e. infinite), the cursor is seeked back
to the region start, and every loop point is reset to active with its
initial remaining count.  A retried call therefore resumes from the region
start, not from the failed read's position. -/
theorem claim_C2 (cfg : WAVConfig) (read : Int → Int → Int) (s : WAVState)
    (bytes : Int) (hq : s.queue = 0) (hb : 0 ≤ bytes) (hpc : s.play_count ≠ 0)
    (hread : ∀ len : Int, read s.pos len = 0) :
    (WAV_GetSome cfg read s bytes).2 =
      { ret := 0, done := false, looped := false, deactivated := false } ∧
    (s.play_count = 1 →
      (WAV_GetSome cfg read s bytes).1 = { s with play_count := 0 }) ∧
    (s.play_count ≠ 1 →
      (WAV_GetSome cfg read s bytes).1 =
        { play_count := if 0 < s.play_count then s.play_count - 1 else -1,
          pos := cfg.start, loops := s.loops.map resetLoop, queue := s.queue }) := by
  have hf : min bytes s.queue = 0 := by rw [hq]; omega
  rcases hfind : findActiveLoop cfg s.pos s.loops 0 with _ | ⟨j, l⟩
  · simp only [WAV_GetSome, hf, hpc, hfind, hread, if_false, ite_false, WAV_Play]
    repeat' split
    all_goals simp_all
  · have hl := findActiveLoop_sound cfg s.pos s.loops 0 j l hfind
    have hnotstop : ¬ loopStopByte cfg l ≤ s.pos + 0 := by omega
    simp only [WAV_GetSome, hf, hpc, hfind, hread, if_false, ite_false, WAV_Play]
    repeat' split
    all_goals simp_all

/-- Witness for C2: the amended statement applied to the concrete failing
session of the counterexample's configuration. -/
theorem claim_C2_witness :
    (WAV_GetSome c2cfg failRead c2st 64).1 =
      { play_count := if 0 < c2st.play_count then c2st.play_count - 1 else -1,
        pos := c2cfg.start, loops := c2st.loops.map resetLoop,
        queue := c2st.queue } :=
  (claim_C2 c2cfg failRead c2st 64 (by decide) (by decide) (by decide)
    fun _ => rfl).2.2 (by decide)

/-- C8 (code bug): an INFO list chunk containing an "INAM" record whose
declared 4-byte length (10) exceeds the bytes remaining in the chunk after
the record's header (20 − 12 = 8).  The claim (and the code's own
`/* Do nothing due to broken lenght */` guard comment) want the field
skipped, but the guard compares the declared length against the *whole*
chunk length (`len > chunk_length`, i.e. 10 > 20, false) instead of the
remaining bytes, so the title *is* stored — in C, `SDL_strlcpy` reads past
the end of the malloc'd chunk buffer to do so (here modelled as reading a
NUL just past the chunk). -/
theorem claim_C8 :
    (20 : Nat) - (4 + 4 + 4) < 10 ∧
    (ParseLIST meta_tags_init 20 c8data).2 = true ∧
    (ParseLIST meta_tags_init 20 c8data).1.title =
      some [65, 66, 67, 68, 69, 70, 71, 72] := by
  decide

/-- Helper: a `write4` store leaves bytes outside `[o, o+3]` unchanged. -/
theorem write4_outside (buf : Int → Nat) (o : Int) (v : Nat) (j : Int)
    (h : j < o ∨ o + 3 < j) : write4 buf o v j = buf j := by
  unfold write4
  split_ifs <;> omega

/-- Helper: the expansion loop never writes above `o + 3`. -/
theorem fetch24loop_untouched_above (steps : Nat) :
    ∀ (buf : Int → Nat) (i o j : Int), o + 3 < j →
      fetch24loop steps buf i o j = buf j := by
  induction steps with
  | zero => intro buf i o j h; rfl
  | succ s ih =>
    intro buf i o j h
    simp only [fetch24loop]
    split
    · rw [ih _ _ _ _ (by omega), write4_outside _ _ _ _ (Or.inr h)]
    · rfl

/-- Helper: a `write4` store puts byte `j` of the value at `o + j`. -/
theorem write4_at (buf : Int → Nat) (o : Int) (v : Nat) (j : Nat) (hj : j < 4) :
    write4 buf o v (o + j) = byteOf v j := by
  unfold write4
  interval_cases j <;> split_ifs <;> first | rfl | omega

/-- Helper: the first iteration's write range `[o, o+3]` survives the rest
of the pass (later writes go strictly below), so the final buffer holds the
bytes of the value decoded from the *incoming* buffer at `i`. -/
theorem fetch24loop_first_write (s : Nat) (buf : Int → Nat) (i o : Int)
    (hi : 0 ≤ i) (j : Nat) (hj : j < 4) :
    fetch24loop (s + 1) buf i o (o + j) =
      byteOf (sign_extend_24_32 (le32buf buf i)) j := by
  simp only [fetch24loop, if_pos hi]
  rw [fetch24loop_untouched_above s _ _ _ _ (by omega), write4_at _ _ _ j hj]

/-- Helper: a 4-byte load strictly below a `write4` range is unaffected. -/
theorem le32buf_write4_below (buf : Int → Nat) (o : Int) (v : Nat) (i : Int)
    (h : i + 3 < o) : le32buf (write4 buf o v) i = le32buf buf i := by
  unfold le32buf
  rw [write4_outside _ _ _ _ (by omega), write4_outside _ _ _ _ (by omega),
    write4_outside _ _ _ _ (by omega), write4_outside _ _ _ _ (by omega)]

/-- Helper (main expansion-pass characterization): running the pass over `n`
samples (`i₀ = 3n - 1`, `o₀ = 4n - 4`), every sample `k ≥ 2` ends up with
the 4 little-endian bytes of the sign-extension of the 4-byte load at
`3k + 2` taken from the *original* buffer: the loads of samples `k ≥ 2` lie
strictly below every earlier write `[4k', 4k'+3]`, `k' > k`. -/
theorem fetch24loop_sample (n : Nat) :
    ∀ (buf : Int → Nat) (k : Nat), 2 ≤ k → k < n → ∀ j : Nat, j < 4 →
      fetch24loop n buf (3 * (n : Int) - 1) (4 * (n : Int) - 4)
          (4 * (k : Int) + j) =
        byteOf (sign_extend_24_32 (le32buf buf (3 * (k : Int) + 2))) j := by
  induction n with
  | zero => intro buf k hk hkn; omega
  | succ n ih =>
    intro buf k hk hkn j hj
    by_cases hkeq : n = k
    · subst hkeq
      have e1 : 3 * ((n + 1 : Nat) : Int) - 1 = 3 * (n : Int) + 2 := by
        push_cast; ring
      have e2 : (4 * ((n + 1 : Nat) : Int) - 4) = 4 * (n : Int) := by
        push_cast; ring
      rw [e1, e2, fetch24loop_first_write n buf _ _ (by positivity) j hj]
    · have hkn' : k < n := by omega
      have hn3 : 3 ≤ n := by omega
      simp only [fetch24loop]
      rw [if_pos (by push_cast; omega)]
      have e1 : 3 * ((n + 1 : Nat) : Int) - 1 - 3 = 3 * (n : Int) - 1 := by
        push_cast; ring
      have e2 : 4 * ((n + 1 : Nat) : Int) - 4 - 4 = 4 * (n : Int) - 4 := by
        push_cast; ring
      rw [e1, e2, ih _ k hk hkn' j hj, le32buf_write4_below]
      push_cast; omega

/-- Helper: masking with 0xFFFFFF is reduction mod 2^24. -/
theorem and_mask24 (x : Nat) : x &&& 0xFFFFFF = x % 2 ^ 24 := by
  have h : (0xFFFFFF : Nat) = 2 ^ 24 - 1 := by norm_num
  rw [h]
  apply Nat.eq_of_testBit_eq
  intro i
  rw [Nat.testBit_and, Nat.testBit_two_pow_sub_one, Nat.testBit_mod_two_pow]
  exact Bool.and_comm _ _

/-- Helper: the decoded value of an expansion iteration does not depend on
the lowest of the 4 loaded bytes — the `>> 8` shifts it out — so each
iteration effectively reads the 3 bytes `i+1 .. i+3` (`reads24`). -/
theorem sign_extend_24_32_drops_low_byte (a b c d : Nat) (ha : a < 256) :
    sign_extend_24_32 (a + b * 0x100 + c * 0x10000 + d * 0x1000000) =
      sign_extend_24_32 (b * 0x100 + c * 0x10000 + d * 0x1000000) := by
  unfold sign_extend_24_32
  have h : ∀ x : Nat, (x >>> 8) &&& 0xFFFFFF = x / 2 ^ 8 % 2 ^ 24 := by
    intro x
    rw [Nat.shiftRight_eq_div_pow, and_mask24]
  rw [h, h]
  have key : (a + b * 0x100 + c * 0x10000 + d * 0x1000000) / 2 ^ 8 % 2 ^ 24 =
      (b * 0x100 + c * 0x10000 + d * 0x1000000) / 2 ^ 8 % 2 ^ 24 := by
    norm_num
    omega
  rw [key]

/-- C3 (counterexample): over a 12-byte pass (length a multiple of 12,
samples 0..3, `i₀ = 11`, `o₀ = 12`, 4 iterations) with the fill pattern
`byte j = j + 1`, byte 4 belongs both to the 3 source bytes sample 0 reads
(`reads24 0`) and to the range iteration 1 writes (`writes24 1`) — and
iteration 1 runs *before* iteration 0 in the descending pass.  The read
therefore sees an already-overwritten byte, observably: the pass's output
byte at offset 1 (sample 0's second byte) is 7, while the expansion of the
pre-pass buffer contents yields 5. -/
theorem claim_C3_counterexample :
    reads24 0 4 ∧ writes24 1 4 ∧
    (12 : Nat) % 12 = 0 ∧
    fetch24loop 4 c3fill 11 12 1 = 7 ∧
    byteOf (sign_extend_24_32 (le32buf c3fill 2)) 1 = 5 := by
  decide

/-- C3 (amended): the overlap-safety of the descending pass holds for every
sample except the two lowest-indexed ones: for all `k ≥ 2`, no byte among
the 3 source bytes read for sample `k` (offsets `3k+3 .. 3k+5`) is ever
written by an earlier (higher-indexed) iteration, and consequently sample
`k`'s 4 output bytes equal the sign-extension of the load taken from the
pre-pass buffer, for every fill pattern.  For samples 0 and 1 the source
bytes overlap the writes of iterations 1 and 2 (see the counterexample). -/
theorem claim_C3 (n k : Nat) (hk : 2 ≤ k) (hkn : k < n) :
    (∀ k' b, k < k' → k' < n → reads24 k b → ¬ writes24 k' b) ∧
    (∀ (buf : Int → Nat) (j : Nat), j < 4 →
      fetch24loop n buf (3 * (n : Int) - 1) (4 * (n : Int) - 4)
          (4 * (k : Int) + j) =
        byteOf (sign_extend_24_32 (le32buf buf (3 * (k : Int) + 2))) j) := by
  refine ⟨?_, fun buf j hj => fetch24loop_sample n buf k hk hkn j hj⟩
  intro k' b hkk' hk'n hr
  unfold reads24 at hr
  unfold writes24
  omega

/-- Witness for C3: in the 4-sample pass, sample 2's source byte 9 is not
written by iteration 3, and sample 2's output byte at offset 9 equals the
expansion of the pre-pass buffer at load offset 8. -/
theorem claim_C3_witness :
    ¬ writes24 3 9 ∧
    fetch24loop 4 c3fill 11 12 9 =
      byteOf (sign_extend_24_32 (le32buf c3fill 8)) 1 := by
  have h := claim_C3 4 2 (by norm_num) (by norm_num)
  refine ⟨h.1 3 9 (by norm_num) (by norm_num) (by unfold reads24; omega), ?_⟩
  have h2 := h.2 c3fill 1 (by norm_num)
  norm_num at h2
  exact h2

/-- C4 (counterexample): byte budget 16 with frame size 3 and a source
supplying all `(16/4)*3 = 12` requested bytes: the truncated source count is
12 (already a multiple of the frame size), so the claim demands
`(12/3)*4 = 16` output bytes, but the code returns
`((12 - 3)/3)*4 = 12` — `((length - music->samplesize) / 3) * 4` drops one
frame from the reported count. -/
theorem claim_C4_counterexample :
    (fetch_pcm24be 3 c4src (fun _ => 0) 16).ret = 12 ∧
    ¬ (fetch_pcm24be 3 c4src (fun _ => 0) 16).ret = 16 := by
  decide

/-- C4 (amended): for frame size `3c` and a source supplying the requested
`(b/4)*3` bytes, `fetch_pcm24be` truncates the count read down to a
multiple of the frame size (call it `L`, with `n = L/3` samples) and
(1) returns `4·(n − c)` output bytes — one frame less than the claim's
`(L/3)·4`; and (2) writes as sample `k`, for every `2 ≤ k < n`, the 4-byte
little-endian sign-extension of the load at buffer offset `3k + 2` — whose
significant bytes are `3k+3 .. 3k+5`, one byte past the sample's nominal
3-byte window — taken from the freshly loaded buffer (samples 0 and 1 may
instead see bytes clobbered by the in-place pass, and the last sample's
load reaches past the loaded data). -/
theorem claim_C4 (c : Nat) (_hc : 0 < c) (b : Int) (_hb : 0 ≤ b)
    (src : List Nat) (buf0 : Int → Nat)
    (hsrc : (src.length : Int) = Int.tdiv b 4 * 3) :
    (fetch_pcm24be (3 * c) src buf0 b).ret =
      4 * (((src.length - src.length % (3 * c)) / 3 : Nat) - (c : Int)) ∧
    ∀ k : Nat, 2 ≤ k → k < (src.length - src.length % (3 * c)) / 3 →
      ∀ j : Nat, j < 4 →
        (fetch_pcm24be (3 * c) src buf0 b).buf (4 * (k : Int) + j) =
          byteOf (sign_extend_24_32
            (le32buf (loadBuf src src.length buf0) (3 * (k : Int) + 2))) j := by
  have hreq : (Int.tdiv b 4 * 3).toNat = src.length := by
    rw [← hsrc]; exact Int.toNat_natCast _
  have hdvd3 : 3 ∣ src.length := by
    have h3 : (3 : Int) ∣ (src.length : Int) := ⟨Int.tdiv b 4, by rw [hsrc]; ring⟩
    exact_mod_cast Int.ofNat_dvd.mp h3
  have hdvdL : 3 ∣ src.length - src.length % (3 * c) :=
    Nat.dvd_sub' hdvd3 ((Nat.dvd_mod_iff ⟨c, rfl⟩).mpr hdvd3)
  set L : Nat := src.length - src.length % (3 * c) with hLdef
  set n : Nat := L / 3 with hndef
  have hL3 : L = 3 * n := by
    rw [hndef, Nat.mul_comm]
    exact (Nat.div_mul_cancel hdvdL).symm
  have hsteps : (L + 2) / 3 = n := by omega
  simp only [fetch_pcm24be, hreq, min_self]
  constructor
  · show Int.tdiv ((L : Int) - (3 * c : Nat)) 3 * 4 = 4 * ((n : Int) - c)
    have he : ((L : Int) - (3 * c : Nat)) = 3 * ((n : Int) - c) := by
      push_cast [hL3]; ring
    rw [he, Int.mul_tdiv_cancel_left _ (by norm_num)]
    ring
  · intro k hk hkn j hj
    have hn3 : 3 ≤ n := by omega
    have hi0 : ((L : Int) - 1) = 3 * (n : Int) - 1 := by push_cast [hL3]; ring
    have ho0 : Int.tdiv ((L : Int) - 1) 3 * 4 = 4 * (n : Int) - 4 := by
      rw [hi0, Int.tdiv_eq_ediv (by omega) (by norm_num)]
      omega
    show fetch24loop ((L + 2) / 3) (loadBuf src src.length buf0) ((L : Int) - 1)
        (Int.tdiv ((L : Int) - 1) 3 * 4) (4 * (k : Int) + j) = _
    rw [hsteps, ho0, hi0]
    exact fetch24loop_sample n (loadBuf src src.length buf0) k hk hkn j hj

/-- Witness for C4: frame size 3 (`c = 1`), budget 16, 12 source bytes: the
call returns `4·(4 − 1) = 12` bytes, and sample 2's output byte at offset 9
is byte 1 of the sign-extension of the load at offset 8 of the loaded
buffer. -/
theorem claim_C4_witness :
    (fetch_pcm24be (3 * 1) c4src (fun _ => 0) 16).ret =
      4 * (((c4src.length - c4src.length % (3 * 1)) / 3 : Nat) - ((1 : Nat) : Int)) ∧
    (fetch_pcm24be (3 * 1) c4src (fun _ => 0) 16).buf (4 * ((2 : Nat) : Int) + (1 : Nat)) =
      byteOf (sign_extend_24_32
        (le32buf (loadBuf c4src c4src.length fun _ => 0) (3 * ((2 : Nat) : Int) + 2))) 1 := by
  have h := claim_C4 1 (by decide) 16 (by decide) c4src (fun _ => 0) (by decide)
  exact ⟨h.1, h.2 2 (by decide) (by decide) 1 (by decide)⟩
